import Mathlib

/-!
Verification development for the `ethsigner` blockchain provider and the
`docker` process-orchestration package of the firefly-cli repository
(files `internal/blockchain/ethereum/ethsigner/ethsigner.go` and
`internal/docker/docker_helpers.go`).

The Go code is shallowly embedded: effectful sub-steps (filesystem writes,
docker invocations) become oracle functions returning `Option String`
(`none` = the sub-step succeeded, `some e` = it failed with error `e`);
the provisioning procedures return the ordered trace of issued sub-steps
together with an `Outcome` (success, a returned error, or a runtime panic
from a failed dynamic type assertion).
-/

/-- Result of a Go function returning `error`, extended with the `panics`
outcome produced by a failed dynamic type assertion such as
`member.Account.(*ethereum.Account)`. -/
inductive Outcome (ε : Type) where
  | ok : Outcome ε
  | err (e : ε) : Outcome ε
  | panics : Outcome ε
deriving DecidableEq, Repr

/-- The dynamic type stored in the `Account interface{}` field of a member.
`ethAccount` mirrors `*ethereum.Account` with its `Address` and `PrivateKey`
fields; `otherAccount` stands for any other dynamic type. -/
inductive AccountVal where
  | ethAccount (Address PrivateKey : String) : AccountVal
  | otherAccount (typeName : String) : AccountVal
deriving DecidableEq, Repr

/-- Whether the dynamic type assertion `.(*ethereum.Account)` succeeds. -/
def isEthereumAccount : AccountVal → Bool
  | .ethAccount _ _ => true
  | .otherAccount _ => false

/-- The address carried by an ethereum account value (dummy for others). -/
def accountAddress : AccountVal → String
  | .ethAccount addr _ => addr
  | .otherAccount _ => ""

/-- A stack member, restricted to the one field the embedded code reads. -/
structure Member where
  Account : AccountVal
deriving DecidableEq, Repr

/-- The fields of `types.Stack` read by `GetDockerServiceDefinition`. -/
structure Stack where
  Name : String
  ChainID : Nat
  ExposedBlockchainPort : Nat
  Members : List Member
deriving Repr

/-! ## Compose Dispatcher (`RunDockerComposeCommand`, docker_helpers.go) -/

/-- The `DockerComposeVersion` enumeration of the docker package. -/
inductive DockerComposeVersion where
  | None : DockerComposeVersion
  | ComposeV1 : DockerComposeVersion
  | ComposeV2 : DockerComposeVersion
deriving DecidableEq, Repr

/-- Embeds `RunDockerComposeCommand`. The context value
`ctx.Value(CtxComposeVersionKey)` is the `Option DockerComposeVersion`
argument (`none` = the key is absent from the context). A successful
dispatch is returned as the issued invocation (binary name, argument list)
handed to `exec.Command`; the default branch of the `switch` issues no
command and returns the error. -/
def RunDockerComposeCommand (v : Option DockerComposeVersion) (command : List String) :
    Except String (String × List String) :=
  match v with
  | some .ComposeV1 => .ok ("docker-compose", command)
  | some .ComposeV2 => .ok ("docker", "compose" :: command)
  | _ => .error "No version for docker-compose has been detected."

/-! ## Process Runner (`runCommand`, docker_helpers.go)

The capture loop's `select` over `stdoutChan`, `stderrChan` and `errChan` is
embedded as a deterministic function of an explicit schedule: the schedule
lists, for each iteration, which channel the `select` statement fires on.
A channel is modelled by the list of lines its drainer has yet to deliver;
receiving from it when that list is empty yields the zero value with
`ok = false`, i.e. observes the closed channel (drainers close their channel
at EOF, so an admissible schedule may always observe the close once the
pending lines are drained). The `errChan` path (drainer I/O error) is not
needed by the claims and is not modelled. -/

/-- Which `select` case fires in one iteration of the capture loop. -/
inductive StreamPick where
  | stdout : StreamPick
  | stderr : StreamPick
deriving DecidableEq, Repr

/-- Embeds the `outputCapture` loop of `runCommand`, iteration by iteration.
Arguments: the two context flags, the schedule, the undelivered stdout and
stderr lines, and the accumulated `outputBuff`. Returns `some buff` when the
loop executes `break outputCapture`, `none` when the schedule is exhausted
with the loop still running. Mirrors the source exactly: in the stdout case
the `!ok` check (and the `break`) sits inside the `isLogCmd || verbose`
conditional, and `outputBuff.WriteString(s)` runs unconditionally; in the
stderr case `!ok` always breaks. -/
def captureLoop (isLogCmd verbose : Bool) :
    List StreamPick → List String → List String → String → Option String
  | [], _, _, _ => none
  | .stdout :: ps, outPending, errPending, buff =>
    match outPending with
    | s :: rest => captureLoop isLogCmd verbose ps rest errPending (buff ++ s)
    | [] =>
      if isLogCmd || verbose then some buff
      else captureLoop isLogCmd verbose ps [] errPending (buff ++ "")
  | .stderr :: ps, outPending, errPending, buff =>
    match errPending with
    | s :: rest => captureLoop isLogCmd verbose ps outPending rest (buff ++ s)
    | [] => some buff

/-- The error message built by `runCommand` for a non-zero exit:
`fmt.Errorf("%s [%d] %s", strings.Join(cmd.Args, " "), statusCode, outputBuff.String())`. -/
def cmdFailureMessage (args : List String) (statusCode : Int) (output : String) : String :=
  String.intercalate " " args ++ " [" ++ toString statusCode ++ "] " ++ output

/-- The exit-code classification performed by `runCommand` after the capture
loop: non-zero exit becomes an error embedding the command line, the status
code and the captured buffer; exit 0 returns the buffer. -/
def finishCommand (args : List String) (statusCode : Int) (output : String) :
    Except String String :=
  if statusCode ≠ 0 then .error (cmdFailureMessage args statusCode output)
  else .ok output

/-- Embeds `runCommand`: run the capture loop, then `cmd.Wait` and classify
the exit code. `none` means the given schedule did not reach the loop exit. -/
def runCommand (isLogCmd verbose : Bool) (sched : List StreamPick)
    (stdoutLines stderrLines : List String) (args : List String) (exitCode : Int) :
    Option (Except String String) :=
  match captureLoop isLogCmd verbose sched stdoutLines stderrLines "" with
  | none => none
  | some buff => some (finishCommand args exitCode buff)

/-- Substring occurrence: `needle` occurs contiguously inside `hay`. -/
def appearsIn (needle hay : String) : Prop :=
  ∃ pre post : String, hay = pre ++ needle ++ post

/-! ## Theorems for the Compose Dispatcher and the Process Runner -/

/-- Claim C5: the Compose Dispatcher behaves by cases on the detected
variant: with the legacy-standalone variant (`ComposeV1`) it issues the
standalone `docker-compose` binary with the args unchanged; with the
integrated-subcommand variant (`ComposeV2`) it issues the host `docker`
binary with `compose` prepended; with no variant detected (key absent or
`None`) it issues no external command and returns the fatal configuration
error. -/
theorem runDockerComposeCommand_dispatch (args : List String) :
    RunDockerComposeCommand (some .ComposeV1) args = .ok ("docker-compose", args) ∧
    RunDockerComposeCommand (some .ComposeV2) args = .ok ("docker", "compose" :: args) ∧
    RunDockerComposeCommand (some .None) args =
      .error "No version for docker-compose has been detected." ∧
    RunDockerComposeCommand none args =
      .error "No version for docker-compose has been detected." :=
  ⟨rfl, rfl, rfl, rfl⟩

/-- Claim C6: whenever the capture loop completes with buffer `buff`, a
non-zero exit code yields a failure (never success) whose message is the
command line joined with spaces, the exit code in brackets, and the entire
captured buffer — each of the three appearing as a substring — while exit
code 0 yields success with the buffer as output. -/
theorem runCommand_exit_classification (isLogCmd verbose : Bool)
    (sched : List StreamPick) (outL errL : List String)
    (args : List String) (code : Int) (buff : String)
    (hcap : captureLoop isLogCmd verbose sched outL errL "" = some buff) :
    (code ≠ 0 →
      runCommand isLogCmd verbose sched outL errL args code =
        some (.error (cmdFailureMessage args code buff)) ∧
      appearsIn (String.intercalate " " args) (cmdFailureMessage args code buff) ∧
      appearsIn (toString code) (cmdFailureMessage args code buff) ∧
      appearsIn buff (cmdFailureMessage args code buff)) ∧
    (code = 0 →
      runCommand isLogCmd verbose sched outL errL args code = some (.ok buff)) := by
  constructor
  · intro hne
    refine ⟨?_, ?_, ?_, ?_⟩
    · simp [runCommand, hcap, finishCommand, hne]
    · exact ⟨"", " [" ++ toString code ++ "] " ++ buff, by
        simp [cmdFailureMessage, String.append_assoc]⟩
    · exact ⟨String.intercalate " " args ++ " [", "] " ++ buff, by
        simp [cmdFailureMessage, String.append_assoc]⟩
    · exact ⟨String.intercalate " " args ++ " [" ++ toString code ++ "] ", "", by
        simp [cmdFailureMessage, String.append_assoc]⟩
  · intro h0
    simp [runCommand, hcap, finishCommand, h0]

/-- Witness for C6 at a concrete invocation: schedule observes stderr
closed immediately, so the loop exits with an empty buffer; exit code 2
produces the documented failure message. -/
theorem runCommand_exit_classification_witness :
    ((2 : Int) ≠ 0 ∧ captureLoop false false [StreamPick.stderr] [] [] "" = some "") ∧
    runCommand false false [StreamPick.stderr] [] [] ["docker", "ps"] 2 =
      some (.error (cmdFailureMessage ["docker", "ps"] 2 "")) :=
  ⟨⟨by decide, rfl⟩,
    ((runCommand_exit_classification false false [StreamPick.stderr] [] []
      ["docker", "ps"] 2 "" rfl).1 (by decide)).1⟩

/-- Claim C9 (code evidence): with verbosity and log-command both off, one
line pending on stdout and nothing on stderr, the schedule that fires the
stderr case first terminates the capture loop immediately — the stderr
channel is closed and always ready — returning buffer `""` even though the
stdout channel has not closed and its pending line `"hello\n"` is lost. -/
theorem captureLoop_breaks_before_stdout_closed :
    captureLoop false false [StreamPick.stderr] ["hello\n"] [] "" = some "" ∧
    ("hello\n" : String) ≠ "" := by
  exact ⟨rfl, by decide⟩

/-! ## Retrying Invoker (`RunDockerCommandRetry`, docker_helpers.go)

The underlying `RunDockerCommand` invocation is abstracted as a function
`run : Nat → Option String` giving the result of the `i`-th underlying
invocation (`none` = success, `some e` = failure with error `e`). The
embedding returns the number of underlying invocations performed together
with the final result. -/

/-- One pass of the `for` loop of `RunDockerCommandRetry`, starting at the
given `attempt` counter: invoke, and on failure with `attempt < retries`
increment the counter and continue; otherwise return. -/
def retryLoop (run : Nat → Option String) (retries : Nat) (attempt : Nat) :
    Nat × Option String :=
  match run attempt with
  | some e =>
    if h : attempt < retries then retryLoop run retries (attempt + 1)
    else (attempt + 1, some e)
  | none => (attempt + 1, none)
termination_by retries - attempt
decreasing_by omega

/-- Embeds `RunDockerCommandRetry`: the loop starts with `attempt = 0`.
First component: how many underlying invocations were performed; second:
the overall result. -/
def RunDockerCommandRetry (run : Nat → Option String) (retries : Nat) :
    Nat × Option String :=
  retryLoop run retries 0

theorem retryLoop_succeeds (run : Nat → Option String) (retries k : Nat)
    (hf : ∀ i, i < k → (run i).isSome = true) (hs : run k = none) :
    ∀ d attempt, k - attempt ≤ d → attempt ≤ k → k ≤ retries →
      retryLoop run retries attempt = (k + 1, none) := by
  intro d
  induction d with
  | zero =>
    intro attempt h1 h2 h3
    have hak : attempt = k := by omega
    subst hak
    rw [retryLoop, hs]
  | succ d ih =>
    intro attempt h1 h2 h3
    by_cases hak : attempt = k
    · subst hak
      rw [retryLoop, hs]
    · have hlt : attempt < k := lt_of_le_of_ne h2 hak
      obtain ⟨e, he⟩ := Option.isSome_iff_exists.mp (hf attempt hlt)
      rw [retryLoop, he]
      have hr : attempt < retries := by omega
      show (if _ : attempt < retries then retryLoop run retries (attempt + 1)
        else (attempt + 1, some e)) = (k + 1, none)
      rw [dif_pos hr]
      exact ih (attempt + 1) (by omega) (by omega) h3

theorem retryLoop_exhausts (run : Nat → Option String) (retries : Nat)
    (hf : ∀ i, i ≤ retries → (run i).isSome = true) :
    ∀ d attempt, retries - attempt ≤ d → attempt ≤ retries →
      retryLoop run retries attempt = (retries + 1, run retries) := by
  intro d
  induction d with
  | zero =>
    intro attempt h1 h2
    have hak : attempt = retries := by omega
    subst hak
    obtain ⟨e, he⟩ := Option.isSome_iff_exists.mp (hf attempt le_rfl)
    rw [retryLoop, he]
    show (if _ : attempt < attempt then retryLoop run attempt (attempt + 1)
      else (attempt + 1, some e)) = (attempt + 1, some e)
    rw [dif_neg (lt_irrefl attempt)]
  | succ d ih =>
    intro attempt h1 h2
    by_cases hak : attempt = retries
    · subst hak
      obtain ⟨e, he⟩ := Option.isSome_iff_exists.mp (hf attempt le_rfl)
      rw [retryLoop, he]
      show (if _ : attempt < attempt then retryLoop run attempt (attempt + 1)
        else (attempt + 1, some e)) = (attempt + 1, some e)
      rw [dif_neg (lt_irrefl attempt)]
    · have hlt : attempt < retries := lt_of_le_of_ne h2 hak
      obtain ⟨e, he⟩ := Option.isSome_iff_exists.mp (hf attempt (le_of_lt hlt))
      rw [retryLoop, he]
      show (if _ : attempt < retries then retryLoop run retries (attempt + 1)
        else (attempt + 1, some e)) = (retries + 1, run retries)
      rw [dif_pos hlt]
      exact ih (attempt + 1) (by omega) (by omega)

/-- Claim C4: if the underlying operation fails on invocations `0..k-1` and
succeeds on invocation `k`, then with `maxRetries ≥ k` the Retrying Invoker
returns success after exactly `k + 1` underlying invocations, and with
`maxRetries < k` it performs exactly `maxRetries + 1` invocations and
returns the result of the `(maxRetries+1)`-th invocation, which is its
failure. In particular (`k = 0`) it returns immediately, after a single
invocation, on first success. -/
theorem runDockerCommandRetry_retry_semantics (run : Nat → Option String)
    (k retries : Nat)
    (hf : ∀ i, i < k → (run i).isSome = true) (hs : run k = none) :
    (k ≤ retries → RunDockerCommandRetry run retries = (k + 1, none)) ∧
    (retries < k →
      RunDockerCommandRetry run retries = (retries + 1, run retries) ∧
      (run retries).isSome = true) := by
  constructor
  · intro hkr
    exact retryLoop_succeeds run retries k hf hs k 0 (by omega) (by omega) hkr
  · intro hrk
    refine ⟨?_, hf retries hrk⟩
    exact retryLoop_exhausts run retries
      (fun i hi => hf i (by omega)) retries 0 (by omega) (by omega)

/-- A concrete underlying operation that fails exactly twice (invocations 0
and 1) and then succeeds. -/
def runFailsTwice : Nat → Option String
  | 0 => some "attempt 0 failed"
  | 1 => some "attempt 1 failed"
  | _ => none

/-- Witness for C4: with `k = 2` failures, `maxRetries = 3` gives success
after 3 invocations, and `maxRetries = 1` gives 2 invocations and returns
the 2nd failure. -/
theorem runDockerCommandRetry_retry_semantics_witness :
    RunDockerCommandRetry runFailsTwice 3 = (3, none) ∧
    RunDockerCommandRetry runFailsTwice 1 = (2, some "attempt 1 failed") := by
  have h2 := runDockerCommandRetry_retry_semantics runFailsTwice 2 3
    (by intro i hi; interval_cases i <;> decide) (by decide)
  have h1 := runDockerCommandRetry_retry_semantics runFailsTwice 2 1
    (by intro i hi; interval_cases i <;> decide) (by decide)
  refine ⟨h2.1 (by omega), ?_⟩
  have := (h1.2 (by omega)).1
  simpa [runFailsTwice] using this

/-! ## Stack Provisioning Sequence (`WriteConfig` / `FirstTimeSetup`, ethsigner.go)

Each effectful sub-step of the two procedures is a value of a step type;
an oracle of type `step → Option String` gives the outcome each sub-step
would have if issued (`none` = success). The embedded procedure returns the
ordered list of sub-steps it actually issued, paired with its `Outcome`. -/

/-- The sub-steps issued by `EthSignerProvider.WriteConfig`:
`os.MkdirAll` on the blockchain init directory, `ioutil.WriteFile` of the
password file, `GenerateSignerConfig(...).WriteConfig` of the signer yaml,
and per member `writeAccountToDisk` and `writeTomlKeyFile`. -/
inductive WCStep where
  | mkdirBlockchainDir : WCStep
  | writePasswordFile : WCStep
  | writeSignerConfig : WCStep
  | writeAccountToDisk (address privateKey : String) : WCStep
  | writeTomlKeyFile (address : String) : WCStep
deriving DecidableEq, Repr

/-- The per-member loop of `WriteConfig` (ethsigner.go lines 64-74): type
assertion on `member.Account`, `writeAccountToDisk`, `writeTomlKeyFile`,
stopping at the first error. -/
def writeMemberFiles (oracle : WCStep → Option String) :
    List Member → List WCStep × Outcome String
  | [] => ([], .ok)
  | m :: rest =>
    match m.Account with
    | .ethAccount addr pk =>
      match oracle (.writeAccountToDisk addr pk) with
      | some e => ([.writeAccountToDisk addr pk], .err e)
      | none =>
        match oracle (.writeTomlKeyFile addr) with
        | some e => ([.writeAccountToDisk addr pk, .writeTomlKeyFile addr], .err e)
        | none =>
          let r := writeMemberFiles oracle rest
          (.writeAccountToDisk addr pk :: .writeTomlKeyFile addr :: r.1, r.2)
    | .otherAccount _ => ([], .panics)

/-- Embeds `EthSignerProvider.WriteConfig` (ethsigner.go lines 46-77).
Note the signer-config branch: the source reads
`if err := GenerateSignerConfig(options.ChainID, rpcURL).WriteConfig(signerConfigPath); err != nil { return nil }`,
so a failure of that sub-step stops the procedure and reports success. -/
def WriteConfig (oracle : WCStep → Option String) (members : List Member) :
    List WCStep × Outcome String :=
  match oracle .mkdirBlockchainDir with
  | some e => ([.mkdirBlockchainDir], .err e)
  | none =>
    match oracle .writePasswordFile with
    | some e => ([.mkdirBlockchainDir, .writePasswordFile], .err e)
    | none =>
      match oracle .writeSignerConfig with
      | some _ => ([.mkdirBlockchainDir, .writePasswordFile, .writeSignerConfig], .ok)
      | none =>
        let r := writeMemberFiles oracle members
        ([.mkdirBlockchainDir, .writePasswordFile, .writeSignerConfig] ++ r.1, r.2)

/-- The sub-steps issued by `EthSignerProvider.FirstTimeSetup`:
`docker.CreateVolume` of the data volume, `os.MkdirAll` of the contracts
directory, `docker.CopyFileToVolume` of the rendered signer configuration,
per member `importAccountToEthsigner`, and `docker.CopyFileToVolume` of the
password file. -/
inductive FTSStep where
  | createVolume (volumeName : String) : FTSStep
  | mkdirContracts : FTSStep
  | copyConfigToVolume (volumeName : String) : FTSStep
  | importAccount (address : String) : FTSStep
  | copyPassword (volumeName : String) : FTSStep
deriving DecidableEq, Repr

/-- The per-member import loop of `FirstTimeSetup` (ethsigner.go lines
99-104): type assertion on `member.Account`, then
`importAccountToEthsigner`, stopping at the first error. -/
def importLoop (oracle : FTSStep → Option String) :
    List Member → List FTSStep × Outcome String
  | [] => ([], .ok)
  | m :: rest =>
    match m.Account with
    | .ethAccount addr _ =>
      match oracle (.importAccount addr) with
      | some e => ([.importAccount addr], .err e)
      | none =>
        let r := importLoop oracle rest
        (.importAccount addr :: r.1, r.2)
    | .otherAccount _ => ([], .panics)

/-- Embeds `EthSignerProvider.FirstTimeSetup` (ethsigner.go lines 79-112).
The result of the `docker.CopyFileToVolume` call for the signer
configuration (line 95) is discarded by the source — the oracle is never
consulted for `copyConfigToVolume`, though the sub-step is issued. -/
def FirstTimeSetup (oracle : FTSStep → Option String) (stackName : String)
    (members : List Member) : List FTSStep × Outcome String :=
  let cv := FTSStep.createVolume (stackName ++ "_ethsigner")
  match oracle cv with
  | some e => ([cv], .err e)
  | none =>
    match oracle FTSStep.mkdirContracts with
    | some e => ([cv, FTSStep.mkdirContracts], .err e)
    | none =>
      let cc := FTSStep.copyConfigToVolume (stackName ++ "_ethsigner_config")
      let r := importLoop oracle members
      match r.2 with
      | .ok =>
        let cp := FTSStep.copyPassword (stackName ++ "_ethsigner")
        match oracle cp with
        | some e => ([cv, FTSStep.mkdirContracts, cc] ++ r.1 ++ [cp], .err e)
        | none => ([cv, FTSStep.mkdirContracts, cc] ++ r.1 ++ [cp], .ok)
      | out => ([cv, FTSStep.mkdirContracts, cc] ++ r.1, out)

theorem importLoop_all_ok (oracle : FTSStep → Option String) :
    ∀ ms : List Member,
      (∀ m ∈ ms, isEthereumAccount m.Account = true) →
      (∀ m ∈ ms, oracle (.importAccount (accountAddress m.Account)) = none) →
      importLoop oracle ms =
        (ms.map (fun m => FTSStep.importAccount (accountAddress m.Account)), .ok) := by
  intro ms
  induction ms with
  | nil => intro _ _; rfl
  | cons m rest ih =>
    intro heth hok
    cases hm : m.Account with
    | ethAccount addr pk =>
      have h1 : oracle (.importAccount addr) = none := by
        have := hok m (List.mem_cons_self m rest)
        simpa [hm, accountAddress] using this
      have ih' := ih (fun x hx => heth x (List.mem_cons_of_mem _ hx))
        (fun x hx => hok x (List.mem_cons_of_mem _ hx))
      simp [importLoop, hm, h1, ih', accountAddress]
    | otherAccount t =>
      exfalso
      have := heth m (List.mem_cons_self m rest)
      rw [hm] at this
      simp [isEthereumAccount] at this

theorem importLoop_first_failure (oracle : FTSStep → Option String)
    (mi : Member) (post : List Member) (e : String)
    (hmi_eth : isEthereumAccount mi.Account = true)
    (hmi_fail : oracle (.importAccount (accountAddress mi.Account)) = some e) :
    ∀ pre : List Member,
      (∀ m' ∈ pre, isEthereumAccount m'.Account = true) →
      (∀ m' ∈ pre, oracle (.importAccount (accountAddress m'.Account)) = none) →
      importLoop oracle (pre ++ mi :: post) =
        (pre.map (fun m' => FTSStep.importAccount (accountAddress m'.Account)) ++
          [FTSStep.importAccount (accountAddress mi.Account)], .err e) := by
  intro pre
  induction pre with
  | nil =>
    intro _ _
    cases hm : mi.Account with
    | ethAccount addr pk =>
      rw [hm] at hmi_fail
      simp only [accountAddress] at hmi_fail
      simp [importLoop, hm, hmi_fail, accountAddress]
    | otherAccount t =>
      exfalso
      rw [hm] at hmi_eth
      simp [isEthereumAccount] at hmi_eth
  | cons p ps ih =>
    intro heth hok
    cases hp : p.Account with
    | ethAccount addr pk =>
      have h1 : oracle (.importAccount addr) = none := by
        have := hok p (List.mem_cons_self p ps)
        simpa [hp, accountAddress] using this
      have ih' := ih (fun x hx => heth x (List.mem_cons_of_mem _ hx))
        (fun x hx => hok x (List.mem_cons_of_mem _ hx))
      simp [importLoop, hp, h1, ih', accountAddress]
    | otherAccount t =>
      exfalso
      have := heth p (List.mem_cons_self p ps)
      rw [hp] at this
      simp [isEthereumAccount] at this

theorem importLoop_congr (o1 o2 : FTSStep → Option String)
    (h : ∀ a, o1 (FTSStep.importAccount a) = o2 (FTSStep.importAccount a)) :
    ∀ ms, importLoop o1 ms = importLoop o2 ms := by
  intro ms
  induction ms with
  | nil => rfl
  | cons m rest ih =>
    cases hm : m.Account with
    | ethAccount addr pk =>
      cases ho : o2 (.importAccount addr) with
      | some e => simp [importLoop, hm, h addr, ho]
      | none => simp [importLoop, hm, h addr, ho, ih]
    | otherAccount t => simp [importLoop, hm]

theorem importLoop_panics (oracle : FTSStep → Option String)
    (hok : ∀ a, oracle (FTSStep.importAccount a) = none) :
    ∀ ms, (∃ m ∈ ms, isEthereumAccount m.Account = false) →
      (importLoop oracle ms).2 = .panics := by
  intro ms
  induction ms with
  | nil => rintro ⟨m, hm, _⟩; cases hm
  | cons m rest ih =>
    rintro ⟨b, hb, hbeth⟩
    cases hm : m.Account with
    | otherAccount t => simp [importLoop, hm]
    | ethAccount addr pk =>
      rcases List.mem_cons.mp hb with hbm | hbr
      · exfalso
        subst hbm
        rw [hm] at hbeth
        simp [isEthereumAccount] at hbeth
      · simp only [importLoop, hm, hok addr]
        exact ih ⟨b, hbr, hbeth⟩

/-- Claim C3: with the volume-creation and contracts-directory sub-steps
succeeding and every member carrying an ethereum account, `FirstTimeSetup`
issues exactly one key import per member, in the stack's declared member
order, all before the password copy: when every import succeeds the issued
trace is the fixed three-step preamble, then the member imports in order,
then the password copy; and when the import of member `mi` (preceded by
`pre`, followed by `post`) is the first to fail, the trace ends at that
failing import — no import of any later member and no password copy is issued — and
the import error is returned. -/
theorem firstTimeSetup_imports_in_order (oracle : FTSStep → Option String)
    (sn : String) (members : List Member)
    (hcv : oracle (.createVolume (sn ++ "_ethsigner")) = none)
    (hmk : oracle .mkdirContracts = none)
    (heth : ∀ m ∈ members, isEthereumAccount m.Account = true) :
    ((∀ m ∈ members, oracle (.importAccount (accountAddress m.Account)) = none) →
      (FirstTimeSetup oracle sn members).1 =
        [.createVolume (sn ++ "_ethsigner"), .mkdirContracts,
         .copyConfigToVolume (sn ++ "_ethsigner_config")] ++
        members.map (fun m => FTSStep.importAccount (accountAddress m.Account)) ++
        [.copyPassword (sn ++ "_ethsigner")]) ∧
    (∀ pre mi post e, members = pre ++ mi :: post →
      (∀ m' ∈ pre, oracle (.importAccount (accountAddress m'.Account)) = none) →
      oracle (.importAccount (accountAddress mi.Account)) = some e →
      FirstTimeSetup oracle sn members =
        ([.createVolume (sn ++ "_ethsigner"), .mkdirContracts,
          .copyConfigToVolume (sn ++ "_ethsigner_config")] ++
         (pre.map (fun m' => FTSStep.importAccount (accountAddress m'.Account)) ++
          [FTSStep.importAccount (accountAddress mi.Account)]), .err e) ∧
      FTSStep.copyPassword (sn ++ "_ethsigner") ∉ (FirstTimeSetup oracle sn members).1) := by
  constructor
  · intro hok
    have hloop := importLoop_all_ok oracle members heth hok
    cases hcp : oracle (.copyPassword (sn ++ "_ethsigner")) with
    | some e => simp [FirstTimeSetup, hcv, hmk, hloop, hcp]
    | none => simp [FirstTimeSetup, hcv, hmk, hloop, hcp]
  · intro pre mi post e hmem hpreok hfail
    have hpre_eth : ∀ m' ∈ pre, isEthereumAccount m'.Account = true := by
      intro m' hm'
      exact heth m' (by rw [hmem]; exact List.mem_append_left _ hm')
    have hmi_eth : isEthereumAccount mi.Account = true := by
      exact heth mi (by rw [hmem]; exact List.mem_append_right _ (List.mem_cons_self mi post))
    have hloop := importLoop_first_failure oracle mi post e hmi_eth hfail pre hpre_eth hpreok
    rw [hmem] at *
    constructor
    · simp [FirstTimeSetup, hcv, hmk, hloop]
    · simp [FirstTimeSetup, hcv, hmk, hloop]

/-- A three-member stack in declared order, used as the concrete witness
for the provisioning-sequence claims. -/
def memberA : Member := { Account := AccountVal.ethAccount "0xaaa1" "0xkeyA" }

def memberB : Member := { Account := AccountVal.ethAccount "0xbbb2" "0xkeyB" }

def memberC : Member := { Account := AccountVal.ethAccount "0xccc3" "0xkeyC" }

/-- An oracle under which every sub-step succeeds except the import of the
second member. -/
def oracleSecondImportFails : FTSStep → Option String
  | .importAccount "0xbbb2" => some "import of member 2 failed"
  | _ => none

/-- Witness for C3 at the spec's own example: 3 participants, the second
member's import fails, so the trace stops at that import and no password copy
appears. -/
theorem firstTimeSetup_imports_in_order_witness :
    FirstTimeSetup oracleSecondImportFails "dev" [memberA, memberB, memberC] =
      ([.createVolume "dev_ethsigner", .mkdirContracts,
        .copyConfigToVolume "dev_ethsigner_config", .importAccount "0xaaa1",
        .importAccount "0xbbb2"], .err "import of member 2 failed") ∧
    FTSStep.copyPassword "dev_ethsigner" ∉
      (FirstTimeSetup oracleSecondImportFails "dev" [memberA, memberB, memberC]).1 := by
  have h := (firstTimeSetup_imports_in_order oracleSecondImportFails "dev"
    [memberA, memberB, memberC] (by decide) (by decide) (by decide)).2
    [memberA] memberB [memberC] "import of member 2 failed" (by decide)
    (by decide) (by decide)
  refine ⟨?_, h.2⟩
  have h1 := h.1
  simpa [memberA, memberB, accountAddress] using h1

/-- An oracle under which every sub-step succeeds except the copy of the
rendered signer configuration into the configuration volume. -/
def oracleCopyConfigFails : FTSStep → Option String
  | .copyConfigToVolume _ => some "copy to volume failed"
  | _ => none

/-- Counterexample to claim C2 as stated: the copy of the rendered signer
configuration (ethsigner.go line 95) fails, yet `FirstTimeSetup` neither
aborts nor returns the error — the key import and the password copy are
still issued and the overall result is success, so that sub-step's error is
swallowed. -/
theorem firstTimeSetup_swallows_config_copy_error :
    FirstTimeSetup oracleCopyConfigFails "dev" [memberA] =
      ([.createVolume "dev_ethsigner", .mkdirContracts,
        .copyConfigToVolume "dev_ethsigner_config", .importAccount "0xaaa1",
        .copyPassword "dev_ethsigner"], .ok) ∧
    oracleCopyConfigFails (.copyConfigToVolume "dev_ethsigner_config") =
      some "copy to volume failed" :=
  ⟨rfl, rfl⟩

/-- Claim C2 (amended): every sub-step of `FirstTimeSetup` whose result the
source checks — volume creation, contracts-directory creation, each
key import, the password copy — aborts the remaining sub-steps on failure and
returns that error immediately; the copy of the rendered signer
configuration is issued, but its result is discarded: the value of
`FirstTimeSetup` is unchanged under any reassignment of that sub-step's
outcome. -/
theorem firstTimeSetup_checked_errors_propagate (oracle o2 : FTSStep → Option String)
    (sn : String) (members : List Member) (e : String) :
    (oracle (.createVolume (sn ++ "_ethsigner")) = some e →
      FirstTimeSetup oracle sn members = ([.createVolume (sn ++ "_ethsigner")], .err e)) ∧
    (oracle (.createVolume (sn ++ "_ethsigner")) = none →
      oracle .mkdirContracts = some e →
      FirstTimeSetup oracle sn members =
        ([.createVolume (sn ++ "_ethsigner"), .mkdirContracts], .err e)) ∧
    (oracle (.createVolume (sn ++ "_ethsigner")) = none →
      oracle .mkdirContracts = none →
      ∀ pre mi post, members = pre ++ mi :: post →
        (∀ m' ∈ pre, isEthereumAccount m'.Account = true) →
        isEthereumAccount mi.Account = true →
        (∀ m' ∈ pre, oracle (.importAccount (accountAddress m'.Account)) = none) →
        oracle (.importAccount (accountAddress mi.Account)) = some e →
        (FirstTimeSetup oracle sn members).2 = .err e) ∧
    (oracle (.createVolume (sn ++ "_ethsigner")) = none →
      oracle .mkdirContracts = none →
      (∀ m ∈ members, isEthereumAccount m.Account = true) →
      (∀ m ∈ members, oracle (.importAccount (accountAddress m.Account)) = none) →
      oracle (.copyPassword (sn ++ "_ethsigner")) = some e →
      (FirstTimeSetup oracle sn members).2 = .err e) ∧
    ((∀ s, (∀ vn, s ≠ FTSStep.copyConfigToVolume vn) → oracle s = o2 s) →
      FirstTimeSetup oracle sn members = FirstTimeSetup o2 sn members) := by
  refine ⟨?_, ?_, ?_, ?_, ?_⟩
  · intro hcv
    simp [FirstTimeSetup, hcv]
  · intro hcv hmk
    simp [FirstTimeSetup, hcv, hmk]
  · intro hcv hmk pre mi post hmem hpre_eth hmi_eth hpreok hfail
    have hloop := importLoop_first_failure oracle mi post e hmi_eth hfail pre hpre_eth hpreok
    rw [hmem]
    simp [FirstTimeSetup, hcv, hmk, hloop]
  · intro hcv hmk heth hok hcp
    have hloop := importLoop_all_ok oracle members heth hok
    simp [FirstTimeSetup, hcv, hmk, hloop, hcp]
  · intro h
    have hcv := h (FTSStep.createVolume (sn ++ "_ethsigner")) (by intro vn; simp)
    have hmk := h FTSStep.mkdirContracts (by intro vn; simp)
    have hcp := h (FTSStep.copyPassword (sn ++ "_ethsigner")) (by intro vn; simp)
    have himp := importLoop_congr oracle o2
      (fun a => h (FTSStep.importAccount a) (by intro vn; simp)) members
    simp only [FirstTimeSetup, hcv, hmk, hcp, himp]

/-- An oracle under which the very first sub-step, volume creation, fails. -/
def oracleCreateVolumeFails : FTSStep → Option String
  | .createVolume _ => some "volume create failed"
  | _ => none

/-- Witness for the amended C2: a failing volume creation aborts
`FirstTimeSetup` at once with that error, and the discarded config-copy
outcome does not change the result (here: against the all-success oracle
with the config copy failing versus succeeding). -/
theorem firstTimeSetup_checked_errors_propagate_witness :
    FirstTimeSetup oracleCreateVolumeFails "dev" [memberA] =
      ([.createVolume "dev_ethsigner"], .err "volume create failed") ∧
    FirstTimeSetup oracleCopyConfigFails "dev" [memberA] =
      FirstTimeSetup (fun _ => none) "dev" [memberA] := by
  constructor
  · exact (firstTimeSetup_checked_errors_propagate oracleCreateVolumeFails
      oracleCreateVolumeFails "dev" [memberA] "volume create failed").1 (by decide)
  · exact (firstTimeSetup_checked_errors_propagate oracleCopyConfigFails
      (fun _ => none) "dev" [memberA] "unused").2.2.2.2
      (by intro s hs; cases s <;> simp_all [oracleCopyConfigFails])

/-- An oracle under which every sub-step of `WriteConfig` succeeds except
the write of the rendered signer configuration file. -/
def oracleSignerConfigFails : WCStep → Option String
  | .writeSignerConfig => some "yaml write failed"
  | _ => none

/-- Claim C1 (code evidence): when the signer-config write sub-step fails,
`WriteConfig` stops — the per-member key files are never written — but
reports success: the source's error branch reads `return nil` instead of
`return err` (ethsigner.go line 61), so the error is discarded. -/
theorem writeConfig_signer_config_error_reported_as_success :
    WriteConfig oracleSignerConfigFails [memberA] =
      ([.mkdirBlockchainDir, .writePasswordFile, .writeSignerConfig], .ok) ∧
    oracleSignerConfigFails .writeSignerConfig = some "yaml write failed" :=
  ⟨rfl, rfl⟩

/-! ## Service Definition Builder (`getCommand` / `GetDockerServiceDefinition`, ethsigner.go) -/

/-- The components of a parsed URL that `getCommand` reads:
`u.Scheme`, `u.Hostname()`, `u.Port()`, `u.Path`. -/
structure URLParts where
  scheme : String
  hostname : String
  port : String
  path : String
deriving DecidableEq, Repr

/-- Cuts a character list at the first occurrence of `c`: the part before
it and, when `c` occurs, the part after it (Go `strings.Cut`). -/
def cutChar (c : Char) : List Char → List Char × Option (List Char)
  | [] => ([], none)
  | x :: xs =>
    if x = c then ([], some xs)
    else
      let p := cutChar c xs
      (x :: p.1, p.2)

/-- Go `stringContainsCTLByte`: a control character (below space, or DEL). -/
def isCtlChar (c : Char) : Bool := c.toNat < 0x20 || c.toNat = 0x7f

/-- Go `getScheme`, scanning for a `scheme:` head: ASCII letters always
continue; digits and `+ - .` continue except in first position (then the
whole string is scheme-less); a `:` in first position is the
missing-protocol-scheme error (`none`); any other character makes the whole
string scheme-less. `some (scheme, rest)` with an empty scheme means a
scheme-less URL — not an error. -/
def getSchemeAux (orig : List Char) (acc : List Char) :
    List Char → Option (List Char × List Char)
  | [] => some ([], orig)
  | c :: rest =>
    if c.isAlpha then getSchemeAux orig (acc ++ [c]) rest
    else if c.isDigit || c = '+' || c = '-' || c = '.' then
      if acc.isEmpty then some ([], orig) else getSchemeAux orig (acc ++ [c]) rest
    else if c = ':' then
      if acc.isEmpty then none else some (acc, rest)
    else some ([], orig)

/-- Entry point of the scheme scanner. -/
def getScheme (cs : List Char) : Option (List Char × List Char) :=
  getSchemeAux cs [] cs

/-- The characters Go accepts unescaped in a host
(`shouldEscape(c, encodeHost) = false`): non-ASCII, alphanumerics,
`- _ . ~`, the apostrophe (code 39) and the listed sub-delimiters. -/
def isHostChar (c : Char) : Bool :=
  0x80 ≤ c.toNat || c.isAlpha || c.isDigit || c.toNat = 39 ||
    c ∈ ['-', '_', '.', '~', '!', '$', '&', '(', ')', '*', '+', ',', ';', '=',
      ':', '[', ']', '<', '>', '"']

/-- The characters Go `validUserinfo` accepts in the userinfo section:
alphanumerics, the apostrophe (code 39) and the listed marks. -/
def isUserinfoChar (c : Char) : Bool :=
  c.isAlpha || c.isDigit || c.toNat = 39 ||
    c ∈ ['-', '.', '_', ':', '~', '!', '$', '&', '(', ')', '*', '+', ',', ';',
      '=', '%', '@']

/-- Splits a character list at the last occurrence of `c`, dropping `c`;
`none` when `c` does not occur. -/
def splitLastAux (c : Char) : List Char → Option (List Char × List Char)
  | [] => none
  | x :: rest =>
    match splitLastAux c rest with
    | some p => some (x :: p.1, p.2)
    | none => if x = c then some ([], rest) else none

/-- Go `parseHost` combined with `u.Hostname()` and `u.Port()`, for
percent-escape-free hosts: a bracketed host needs its closing `]` and a
digits-only optional port after it; otherwise the part after the last `:`
must be digits-only (Go `validOptionalPort`, empty allowed) and every host
character must be one Go accepts. Returns `(hostname, port)`. -/
def parseHost (host : List Char) : Option (List Char × List Char) :=
  match host with
  | '[' :: _ =>
    match splitLastAux ']' host with
    | none => none
    | some (beforeBr, colonPort) =>
      let portOk := match colonPort with
        | [] => true
        | ':' :: ds => ds.all Char.isDigit
        | _ => false
      if portOk && (beforeBr.drop 1).all isHostChar then
        some (beforeBr.drop 1, match colonPort with | ':' :: ds => ds | _ => [])
      else none
  | _ =>
    match splitLastAux ':' host with
    | some (h, p) =>
      if p.all Char.isDigit && h.all isHostChar then some (h, p) else none
    | none =>
      if host.all isHostChar then some (host, []) else none

/-- Go `parseAuthority`: an optional userinfo section before the last `@`
(validated per `validUserinfo`), then the host. -/
def parseAuthority (authority : List Char) : Option (List Char × List Char) :=
  match splitLastAux '@' authority with
  | some (userinfo, host) =>
    if userinfo.all isUserinfoChar then parseHost host else none
  | none => parseHost authority

/-- Models the external `net/url.Parse` (with `u.Scheme`, `u.Hostname()`,
`u.Port()`, `u.Path`) for percent-escape-free URLs, following Go's parse
flow: cut the fragment at `#`; reject control characters; recognize the
scheme per `getScheme` (a string without a valid `scheme:` head, such as
`nourl`, parses as a bare path with empty host — it is NOT an error, and
the scheme is lowercased); cut the query at `?`; an `//` authority is split
at the first `/` and parsed per `parseAuthority`, the remainder being the
path; a rest starting with a single `/` is all path with empty host; a
scheme-less rest without leading `/` errors if its first segment contains
`:`, and otherwise is all path; `scheme:opaque` forms yield empty host,
port and path. `none` models exactly a non-nil Go parse error: a control
character, missing protocol scheme, a colon in the first path segment of a
scheme-less URL, a missing `]`, an invalid port, or an invalid host or
userinfo character. Percent-escapes (which Go decodes or rejects) and IPv6
zone identifiers are outside the modelled subset. -/
def urlParse (s : String) : Option URLParts :=
  let cs := (cutChar '#' s.toList).1
  if cs.any isCtlChar then none
  else
    match getScheme cs with
    | none => none
    | some (schemeCs0, rest0) =>
      let schemeCs := schemeCs0.map Char.toLower
      let rest := (cutChar '?' rest0).1
      match rest with
      | '/' :: '/' :: rest2 =>
        if schemeCs.isEmpty && rest2.head? == some '/' then
          some { scheme := "", hostname := "", port := "", path := rest.asString }
        else
          let p := cutChar '/' rest2
          let pathCs : List Char := match p.2 with
            | some after => '/' :: after
            | none => []
          match parseAuthority p.1 with
          | none => none
          | some (hostCs, portCs) =>
            some { scheme := schemeCs.asString, hostname := hostCs.asString,
                   port := portCs.asString, path := pathCs.asString }
      | '/' :: _ =>
        some { scheme := schemeCs.asString, hostname := "", port := "",
               path := rest.asString }
      | _ =>
        if schemeCs.isEmpty then
          if ':' ∈ (cutChar '/' rest).1 then none
          else some { scheme := "", hostname := "", port := "", path := rest.asString }
        else some { scheme := schemeCs.asString, hostname := "", port := "", path := "" }

/-- The flag list assembled by `getCommand` (ethsigner.go lines 124-141)
from the chain ID and the parsed RPC URL: the TLS flag is appended only for
scheme `https`, the port defaults to `443` only on that TLS path, and the
path flag is appended only for a non-empty, non-root URL path. -/
def getCommandList (chainID : Nat) (u : URLParts) : List String :=
  let cmd := ["--logging=DEBUG", "--chain-id=" ++ toString chainID,
    "--downstream-http-host=" ++ u.hostname]
  let port := u.port
  let tlsStep : List String × String :=
    if u.scheme = "https" then
      (cmd ++ ["--downstream-http-tls-enabled"], if port = "" then "443" else port)
    else (cmd, port)
  let cmd2 :=
    if u.path ≠ "" ∧ u.path ≠ "/" then
      tlsStep.1 ++ ["--downstream-http-path=" ++ u.path]
    else tlsStep.1
  cmd2 ++ ["--downstream-http-port=" ++ tlsStep.2, "multikey-signer",
    "--directory=/data/keystore"]

/-- Embeds `EthSignerProvider.getCommand` (ethsigner.go lines 114-142).
The compile-time constant `useJavaSigner` is the first argument so the
alternate (strict multi-key, Java) signing runtime variant can be stated;
when it is `false` the command line is empty. `none` models the `panic` on
an unparseable or empty RPC URL. -/
def getCommand (javaSigner : Bool) (chainID : Nat) (rpcURL : String) : Option String :=
  if !javaSigner then some ""
  else
    match urlParse rpcURL with
    | none => none
    | some u =>
      if rpcURL = "" then none
      else some (String.intercalate " " (getCommandList chainID u))

/-- The compile-time constant of ethsigner.go line 38. -/
def useJavaSigner : Bool := false

/-- The image constant of ethsigner.go line 35. -/
def ethsignerImage : String := "ghcr.io/hyperledger/firefly-signer:v0.9.1"

/-- The `docker.HealthCheck` fields used by the service definition. -/
structure HealthCheck where
  Test : List String
  Interval : String
  Retries : Nat
deriving DecidableEq, Repr

/-- The `docker.Service` fields populated by `GetDockerServiceDefinition`
(the external `Logging: docker.StandardLogOptions` constant is omitted). -/
structure Service where
  Image : String
  ContainerName : String
  User : String
  Command : String
  Volumes : List String
  HealthCheck : HealthCheck
  Ports : List String
deriving DecidableEq, Repr

/-- The `docker.ServiceDefinition` fields populated by
`GetDockerServiceDefinition`. -/
structure ServiceDefinition where
  ServiceName : String
  Service : Service
  VolumeNames : List String
deriving DecidableEq, Repr

/-- The `addresses` accumulation loop of `GetDockerServiceDefinition`
(ethsigner.go lines 145-152): each member's account is downcast and its
address appended, comma-separated; `none` models the panic on a member
whose account is not an ethereum account. -/
def addressesString : List Member → Option String
  | [] => some ""
  | m :: rest =>
    match m.Account with
    | .ethAccount addr _ =>
      match rest with
      | [] => some addr
      | _ :: _ =>
        match addressesString rest with
        | some s => some (addr ++ "," ++ s)
        | none => none
    | .otherAccount _ => none

/-- Embeds `EthSignerProvider.GetDockerServiceDefinition` (ethsigner.go
lines 144-188). `none` models a panic (from the account downcast in the
addresses loop, or from `getCommand`). -/
def GetDockerServiceDefinition (stack : Stack) (rpcURL : String) :
    Option ServiceDefinition :=
  match addressesString stack.Members with
  | none => none
  | some _ =>
    match getCommand useJavaSigner stack.ChainID rpcURL with
    | none => none
    | some cmd =>
      some {
        ServiceName := "ethsigner"
        Service := {
          Image := ethsignerImage
          ContainerName := stack.Name ++ "_ethsigner"
          User := "root"
          Command := cmd
          Volumes := ["ethsigner:/data", "ethsigner_config:/etc/firefly"]
          HealthCheck := {
            Test := ["CMD", "curl", "-X", "POST", "-H",
              "Content-Type: application/json", "-d",
              "\x7b\"jsonrpc\":\"2.0\",\"method\":\"net_version\",\"params\":[],\"id\":\"1\"\x7d",
              "-w", "%\x7bhttp_code\x7d", "-sS", "--fail",
              "http://localhost:8545/"]
            Interval := "15s"
            Retries := 60
          }
          Ports := [toString stack.ExposedBlockchainPort ++ ":8545"]
        }
        VolumeNames := ["ethsigner", "ethsigner_config"]
      }

/-- Claim C7: under the alternate (strict multi-key, Java) signing runtime
variant, the command line for `https://rpc.example:9999/v1` contains the
TLS flag, host `rpc.example`, port `9999` and the path flag for `/v1`; for
`http://rpc.local` (no port, no path) the port flag is left empty — the
scheme-conventional default `443` is applied only on the TLS (`https`)
branch, so no port `80` is assumed — and no path flag is emitted; the empty
RPC URL and invalid RPC URLs are fatal (the panic, modelled as `none`),
shown at one representative of each Go parse-error class the embedding
covers: an invalid host character (`http://a b`), a missing protocol
scheme (`://rpc.local`) and an invalid port (`http://rpc.local:99x9`);
while the scheme-less `nourl`, which Go parses successfully as a bare
path, is NOT fatal. -/
theorem getCommand_alternate_runtime_url_handling :
    urlParse "https://rpc.example:9999/v1" =
      some { scheme := "https", hostname := "rpc.example", port := "9999", path := "/v1" } ∧
    (∀ chainID : Nat, getCommand true chainID "https://rpc.example:9999/v1" =
      some (String.intercalate " " (getCommandList chainID
        { scheme := "https", hostname := "rpc.example", port := "9999", path := "/v1" }))) ∧
    getCommandList 2021
        { scheme := "https", hostname := "rpc.example", port := "9999", path := "/v1" } =
      ["--logging=DEBUG", "--chain-id=2021", "--downstream-http-host=rpc.example",
       "--downstream-http-tls-enabled", "--downstream-http-path=/v1",
       "--downstream-http-port=9999", "multikey-signer", "--directory=/data/keystore"] ∧
    urlParse "http://rpc.local" =
      some { scheme := "http", hostname := "rpc.local", port := "", path := "" } ∧
    (∀ chainID : Nat, getCommand true chainID "http://rpc.local" =
      some (String.intercalate " " (getCommandList chainID
        { scheme := "http", hostname := "rpc.local", port := "", path := "" }))) ∧
    getCommandList 2021 { scheme := "http", hostname := "rpc.local", port := "", path := "" } =
      ["--logging=DEBUG", "--chain-id=2021", "--downstream-http-host=rpc.local",
       "--downstream-http-port=", "multikey-signer", "--directory=/data/keystore"] ∧
    "--downstream-http-port=80" ∉ getCommandList 2021
      { scheme := "http", hostname := "rpc.local", port := "", path := "" } ∧
    (∀ a ∈ getCommandList 2021
        { scheme := "http", hostname := "rpc.local", port := "", path := "" },
      "--downstream-http-path=".toList.isPrefixOf a.toList = false) ∧
    "--downstream-http-tls-enabled" ∉ getCommandList 2021
      { scheme := "http", hostname := "rpc.local", port := "", path := "" } ∧
    (∀ chainID : Nat, getCommand true chainID "" = none) ∧
    (∀ chainID : Nat, getCommand true chainID "http://a b" = none) ∧
    (∀ chainID : Nat, getCommand true chainID "://rpc.local" = none) ∧
    (∀ chainID : Nat, getCommand true chainID "http://rpc.local:99x9" = none) ∧
    urlParse "nourl" =
      some { scheme := "", hostname := "", port := "", path := "nourl" } ∧
    (∀ chainID : Nat, getCommand true chainID "nourl" =
      some (String.intercalate " " (getCommandList chainID
        { scheme := "", hostname := "", port := "", path := "nourl" }))) := by
  refine ⟨rfl, fun _ => rfl, by decide, rfl, fun _ => rfl, by decide, by decide, by decide,
    by decide, fun _ => rfl, fun _ => rfl, fun _ => rfl, fun _ => rfl, rfl, fun _ => rfl⟩

/-- Witness for C7, discharging the membership hypothesis of the
no-path-flag conjunct at the concrete port flag of the `http://rpc.local`
command line. -/
theorem getCommand_alternate_runtime_url_handling_witness :
    "--downstream-http-port=" ∈ getCommandList 2021
      { scheme := "http", hostname := "rpc.local", port := "", path := "" } ∧
    "--downstream-http-path=".toList.isPrefixOf "--downstream-http-port=".toList = false := by
  obtain ⟨h1, h2, h3, h4, h5, h6, h7, h8, h9, h10, h11, h12, h13, h14, h15⟩ :=
    getCommand_alternate_runtime_url_handling
  exact ⟨by decide, h8 "--downstream-http-port=" (by decide)⟩

theorem addressesString_isSome :
    ∀ ms : List Member, (∀ m ∈ ms, isEthereumAccount m.Account = true) →
      (addressesString ms).isSome = true := by
  intro ms
  induction ms with
  | nil => intro _; rfl
  | cons m rest ih =>
    intro heth
    obtain ⟨acc⟩ := m
    cases acc with
    | ethAccount addr pk =>
      cases rest with
      | nil => rfl
      | cons r rs =>
        obtain ⟨s, hs⟩ := Option.isSome_iff_exists.mp
          (ih (fun x hx => heth x (List.mem_cons_of_mem _ hx)))
        show (match addressesString (r :: rs) with
          | some s => some (addr ++ "," ++ s)
          | none => none).isSome = true
        rw [hs]
        rfl
    | otherAccount t =>
      exfalso
      have := heth ⟨.otherAccount t⟩ (List.mem_cons_self _ rest)
      simp [isEthereumAccount] at this

theorem addressesString_panics :
    ∀ ms : List Member, (∃ m ∈ ms, isEthereumAccount m.Account = false) →
      addressesString ms = none := by
  intro ms
  induction ms with
  | nil => rintro ⟨m, hm, _⟩; cases hm
  | cons m rest ih =>
    rintro ⟨b, hb, hbeth⟩
    obtain ⟨acc⟩ := m
    cases acc with
    | otherAccount t => rfl
    | ethAccount addr pk =>
      rcases List.mem_cons.mp hb with hbm | hbr
      · exfalso
        subst hbm
        simp [isEthereumAccount] at hbeth
      · cases rest with
        | nil => exact absurd hbr (List.not_mem_nil b)
        | cons r rs =>
          have hrest := ih ⟨b, hbr, hbeth⟩
          show (match addressesString (r :: rs) with
            | some s => some (addr ++ "," ++ s)
            | none => none) = none
          rw [hrest]

/-- Claim C8 (amended): for a stack whose members all carry ethereum
accounts, the produced service definition has container name
`<stack>_ethsigner`, maps the fixed internal port 8545 to the stack's
configured external blockchain port, and declares exactly the two volume
names `ethsigner` and `ethsigner_config` — the compose-file-local names,
without the `<stack>_` prefix of the claim (that prefix is applied
externally when compose materializes the volumes). -/
theorem getDockerServiceDefinition_shape (stack : Stack) (rpcURL : String)
    (heth : ∀ m ∈ stack.Members, isEthereumAccount m.Account = true) :
    ∃ d, GetDockerServiceDefinition stack rpcURL = some d ∧
      d.Service.ContainerName = stack.Name ++ "_ethsigner" ∧
      d.Service.Ports = [toString stack.ExposedBlockchainPort ++ ":8545"] ∧
      d.VolumeNames = ["ethsigner", "ethsigner_config"] ∧
      d.Service.Volumes = ["ethsigner:/data", "ethsigner_config:/etc/firefly"] := by
  obtain ⟨s, hs⟩ := Option.isSome_iff_exists.mp (addressesString_isSome stack.Members heth)
  simp only [GetDockerServiceDefinition, hs]
  exact ⟨_, rfl, rfl, rfl, rfl, rfl⟩

/-- A single-member stack used as concrete input for the service-definition
claims. -/
def devStack : Stack :=
  { Name := "dev", ChainID := 2021, ExposedBlockchainPort := 5100, Members := [memberA] }

/-- Counterexample to claim C8 as stated: the volume names declared by the
service definition are `ethsigner` and `ethsigner_config`; the
stack-prefixed names `dev_ethsigner` and `dev_ethsigner_config` that the
claim requires do not appear. -/
theorem getDockerServiceDefinition_volumeNames_lack_stack_name :
    (GetDockerServiceDefinition devStack "http://geth:8545").map
        ServiceDefinition.VolumeNames = some ["ethsigner", "ethsigner_config"] ∧
    "dev_ethsigner" ∉ ["ethsigner", "ethsigner_config"] ∧
    "dev_ethsigner_config" ∉ ["ethsigner", "ethsigner_config"] :=
  ⟨rfl, by decide, by decide⟩

/-- Witness for the amended C8 at the concrete stack `devStack`. -/
theorem getDockerServiceDefinition_shape_witness :
    (GetDockerServiceDefinition devStack "http://geth:8545").map
        ServiceDefinition.VolumeNames = some ["ethsigner", "ethsigner_config"] ∧
    (GetDockerServiceDefinition devStack "http://geth:8545").map
        (fun d => d.Service.ContainerName) = some "dev_ethsigner" := by
  obtain ⟨d, hd, h1, h2, h3, h4⟩ :=
    getDockerServiceDefinition_shape devStack "http://geth:8545" (by decide)
  rw [hd]
  simp [h1, h3, devStack]

theorem writeMemberFiles_panics (oracle : WCStep → Option String)
    (hok : ∀ s, oracle s = none) :
    ∀ ms, (∃ m ∈ ms, isEthereumAccount m.Account = false) →
      (writeMemberFiles oracle ms).2 = .panics := by
  intro ms
  induction ms with
  | nil => rintro ⟨m, hm, _⟩; cases hm
  | cons m rest ih =>
    rintro ⟨b, hb, hbeth⟩
    cases hm : m.Account with
    | otherAccount t => simp [writeMemberFiles, hm]
    | ethAccount addr pk =>
      rcases List.mem_cons.mp hb with hbm | hbr
      · exfalso
        subst hbm
        rw [hm] at hbeth
        simp [isEthereumAccount] at hbeth
      · simp only [writeMemberFiles, hm, hok (WCStep.writeAccountToDisk addr pk),
          hok (WCStep.writeTomlKeyFile addr)]
        exact ih ⟨b, hbr, hbeth⟩

/-- Claim C10: each of `GetDockerServiceDefinition`, `WriteConfig` and
`FirstTimeSetup` downcasts every member's account without a type check, so
a stack containing a member whose account is of any other dynamic type
makes the operation panic rather than return an error value —
`GetDockerServiceDefinition` unconditionally, and the two provisioning
procedures as soon as their preceding (here: all-succeeding) sub-steps let
them reach the offending member. -/
theorem account_downcast_panics (stack : Stack) (rpcURL : String)
    (oracleWC : WCStep → Option String) (oracleFTS : FTSStep → Option String)
    (sn : String) (members : List Member)
    (hWC : ∀ s, oracleWC s = none) (hFTS : ∀ s, oracleFTS s = none)
    (hbadS : ∃ m ∈ stack.Members, isEthereumAccount m.Account = false)
    (hbadM : ∃ m ∈ members, isEthereumAccount m.Account = false) :
    GetDockerServiceDefinition stack rpcURL = none ∧
    (WriteConfig oracleWC members).2 = .panics ∧
    (FirstTimeSetup oracleFTS sn members).2 = .panics := by
  refine ⟨?_, ?_, ?_⟩
  · simp [GetDockerServiceDefinition, addressesString_panics stack.Members hbadS]
  · rcases hw : writeMemberFiles oracleWC members with ⟨tr, r⟩
    have hr : r = .panics := by
      have := writeMemberFiles_panics oracleWC hWC members hbadM
      rw [hw] at this
      exact this
    subst hr
    simp [WriteConfig, hWC WCStep.mkdirBlockchainDir, hWC WCStep.writePasswordFile,
      hWC WCStep.writeSignerConfig, hw]
  · rcases hi : importLoop oracleFTS members with ⟨tr, r⟩
    have hr : r = .panics := by
      have := importLoop_panics oracleFTS (fun a => hFTS _) members hbadM
      rw [hi] at this
      exact this
    subst hr
    simp [FirstTimeSetup, hFTS (FTSStep.createVolume (sn ++ "_ethsigner")),
      hFTS FTSStep.mkdirContracts, hi]

/-- A member whose `Account` field holds a non-ethereum dynamic type. -/
def badMember : Member := { Account := AccountVal.otherAccount "fabric.Identity" }

/-- Witness for C10 at a concrete two-member stack whose second member
carries a non-ethereum account, with all-succeeding oracles. -/
theorem account_downcast_panics_witness :
    GetDockerServiceDefinition
      { Name := "dev", ChainID := 2021, ExposedBlockchainPort := 5100,
        Members := [memberA, badMember] } "http://geth:8545" = none ∧
    (WriteConfig (fun _ => none) [memberA, badMember]).2 = .panics ∧
    (FirstTimeSetup (fun _ => none) "dev" [memberA, badMember]).2 = .panics :=
  account_downcast_panics _ "http://geth:8545" (fun _ => none) (fun _ => none)
    "dev" [memberA, badMember] (fun _ => rfl) (fun _ => rfl)
    ⟨badMember, by decide, rfl⟩ ⟨badMember, by decide, rfl⟩
